import Mathlib

/-!
Verification of the codex-sdk-rs core against its specification.

The Rust sources are shallowly embedded: `serde_json::Value` becomes the
inductive `Jval`, fallible functions return `Except CodexError`, the
process/stream machinery becomes explicit state passing over lists, and
the mutable session id of a `Thread` becomes an explicit `Option String`
threaded through the event drain.
-/

namespace Codex

/-- Numbers of `serde_json::Value`. Integral numbers are carried exactly;
a floating number is abstracted to its finiteness flag and its rendered
text, which is all `CodexExec::to_toml_value` observes about it. -/
inductive JNumber where
  | int (i : Int)
  | float (finite : Bool) (text : String)
deriving Repr, DecidableEq

/-- Modelled from the spec: `serde_json::Value`. Object fields iterate in
insertion order, as fixed by the worked example of the spec (the `preserve_order`
feature choice lives in the crate manifest, which is not part of the
sources). -/
inductive Jval where
  | null
  | bool (b : Bool)
  | num (n : JNumber)
  | str (s : String)
  | arr (items : List Jval)
  | obj (fields : List (String × Jval))

/-- `Value::is_null`. -/
def Jval.isNull : Jval → Bool
  | .null => true
  | _ => false

/-- `Value::is_object`. -/
def Jval.isObj : Jval → Bool
  | .obj _ => true
  | _ => false

/-- The `CodexError` enum from `src/error.rs`. The transparent I/O and
serde variants are carried as their message text. -/
inductive CodexError where
  | unsupportedPlatform (os arch : String)
  | invalidConfigRoot
  | invalidConfigKey
  | invalidConfigNumber (path : String)
  | invalidConfigNull (path : String)
  | invalidConfigValue (path detail : String)
  | invalidOutputSchema
  | invalidEvent (raw : String)
  | execFailed (detail stderr_text : String)
  | aborted
  | turnFailed (msg : String)
  | missingChildStream (which : String)
  | ioError (msg : String)
  | jsonError (msg : String)
deriving Repr, DecidableEq

/-- One hexadecimal digit, lowercase, as emitted by the serde_json escaper. -/
def hexDigitChar (n : Nat) : Char :=
  if n < 10 then Char.ofNat (48 + n) else Char.ofNat (87 + n)

/-- Escaping of a single character inside a JSON string literal, following
serde_json: quote and backslash are escaped, the five short control escapes
are used, any other control character becomes a lowercase unicode escape. -/
def jsonEscapeChar (c : Char) : String :=
  if c = '"' then ("\\\"")
  else if c = '\\' then ("\\\\")
  else if c = '\x08' then ("\\b")
  else if c = '\x09' then ("\\t")
  else if c = '\x0a' then ("\\n")
  else if c = '\x0c' then ("\\f")
  else if c = '\x0d' then ("\\r")
  else if c.toNat < 32 then
    "\\u00" ++ String.singleton (hexDigitChar (c.toNat / 16))
      ++ String.singleton (hexDigitChar (c.toNat % 16))
  else String.singleton c

/-- `serde_json::to_string` on a string value: a quoted, escaped literal. -/
def jsonQuote (s : String) : String :=
  "\"" ++ String.join (s.data.map jsonEscapeChar) ++ "\""

/-- `CodexExec::format_toml_key`: bare ASCII-alphanumeric/underscore/hyphen
keys are kept, all others are re-quoted as JSON strings. -/
def formatTomlKey (key : String) : String :=
  if key.data.all (fun ch => ch.isAlphanum || ch = '_' || ch = '-') then key
  else jsonQuote key

mutual

/-- `CodexExec::to_toml_value` from `src/exec.rs`: renders one value as a
TOML-style literal, failing on non-finite numbers and on nulls reached as
array elements, while pruning null members of inline objects. -/
def toTomlValue : Jval → String → Except CodexError String
  | .str s, _ => .ok (jsonQuote s)
  | .num n, path =>
      match n with
      | .int i => .ok (toString i)
      | .float finite text =>
          if finite then .ok text else .error (.invalidConfigNumber path)
  | .bool b, _ => .ok (if b then ("true") else ("false"))
  | .arr xs, path => do
      let rendered ← toTomlArray xs 0 path
      .ok ("[" ++ String.intercalate (", ") rendered ++ "]")
  | .obj fields, path => do
      let parts ← toTomlObjParts fields path
      .ok ("\x7b" ++ String.intercalate (", ") parts ++ "\x7d")
  | .null, path => .error (.invalidConfigNull path)

/-- The element loop of the `Value::Array` arm of `to_toml_value`:
each element is rendered with an index-suffixed diagnostic path. -/
def toTomlArray : List Jval → Nat → String → Except CodexError (List String)
  | [], _, _ => .ok []
  | x :: rest, index, path => do
      let r ← toTomlValue x (path ++ "[" ++ toString index ++ "]")
      let rs ← toTomlArray rest (index + 1) path
      .ok (r :: rs)

/-- The member loop of the `Value::Object` arm of `to_toml_value`: empty
keys fail, null members are skipped, others render as `key = value`. -/
def toTomlObjParts : List (String × Jval) → String → Except CodexError (List String)
  | [], _ => .ok []
  | (key, child) :: rest, path =>
      if key = "" then .error .invalidConfigKey
      else if child.isNull then toTomlObjParts rest path
      else do
        let v ← toTomlValue child (path ++ "." ++ key)
        let rs ← toTomlObjParts rest path
        .ok ((formatTomlKey key ++ " = " ++ v) :: rs)

end

mutual

/-- `CodexExec::flatten_config_overrides` from `src/exec.rs`. The `&mut
Vec` accumulator of the source is modelled by returning the entries the
call appends, in order. -/
def flattenConfigOverrides (value : Jval) (pfx : String) :
    Except CodexError (List String) :=
  match value with
  | .obj fields =>
      if fields.isEmpty then
        if pfx = "" then .ok [] else .ok [pfx ++ "=\x7b\x7d"]
      else flattenFields fields pfx
  | _ =>
      if pfx = "" then .error .invalidConfigRoot
      else do
        let v ← toTomlValue value pfx
        .ok [pfx ++ "=" ++ v]

/-- The member loop of `flatten_config_overrides`: empty keys fail, null
members are skipped, object members recurse with a dotted path, other
members emit `path=literal`. -/
def flattenFields : List (String × Jval) → String → Except CodexError (List String)
  | [], _ => .ok []
  | (key, child) :: rest, pfx =>
      if key = "" then .error .invalidConfigKey
      else if child.isNull then flattenFields rest pfx
      else
        let path := if pfx = "" then key else pfx ++ "." ++ key
        if child.isObj then do
          let sub ← flattenConfigOverrides child path
          let more ← flattenFields rest pfx
          .ok (sub ++ more)
        else do
          let v ← toTomlValue child path
          let more ← flattenFields rest pfx
          .ok ((path ++ "=" ++ v) :: more)

end

/-- `CodexExec::serialize_config_overrides`: flatten from the root with an
empty path. -/
def serializeConfigOverrides (config : Jval) : Except CodexError (List String) :=
  flattenConfigOverrides config ("")

/-- `ApprovalMode` from `src/thread_options.rs`. -/
inductive ApprovalMode where
  | never
  | onRequest
  | onFailure
  | untrusted
deriving Repr, DecidableEq

/-- `ApprovalMode::as_str`. -/
def ApprovalMode.as_str : ApprovalMode → String
  | .never => "never"
  | .onRequest => "on-request"
  | .onFailure => "on-failure"
  | .untrusted => "untrusted"

/-- `SandboxMode` from `src/thread_options.rs`. -/
inductive SandboxMode where
  | readOnly
  | workspaceWrite
  | dangerFullAccess
deriving Repr, DecidableEq

/-- `SandboxMode::as_str`. -/
def SandboxMode.as_str : SandboxMode → String
  | .readOnly => "read-only"
  | .workspaceWrite => "workspace-write"
  | .dangerFullAccess => "danger-full-access"

/-- `ModelReasoningEffort` from `src/thread_options.rs`. -/
inductive ModelReasoningEffort where
  | minimal
  | low
  | medium
  | high
  | xhigh
deriving Repr, DecidableEq

/-- `ModelReasoningEffort::as_str`. -/
def ModelReasoningEffort.as_str : ModelReasoningEffort → String
  | .minimal => "minimal"
  | .low => "low"
  | .medium => "medium"
  | .high => "high"
  | .xhigh => "xhigh"

/-- `WebSearchMode` from `src/thread_options.rs`. -/
inductive WebSearchMode where
  | disabled
  | cached
  | live
deriving Repr, DecidableEq

/-- `WebSearchMode::as_str`. -/
def WebSearchMode.as_str : WebSearchMode → String
  | .disabled => "disabled"
  | .cached => "cached"
  | .live => "live"

/-- `CodexExecArgs` from `src/exec.rs`. A `CancellationToken` is abstracted
to whether it is signaled when the run starts (`cancel = some b` means a
token was supplied and `is_cancelled` returns `b` at the pre-spawn check). -/
structure CodexExecArgs where
  input : String
  base_url : Option String
  api_key : Option String
  thread_id : Option String
  images : Option (List String)
  model : Option String
  sandbox_mode : Option SandboxMode
  working_directory : Option String
  additional_directories : Option (List String)
  skip_git_repo_check : Option Bool
  output_schema_file : Option String
  model_reasoning_effort : Option ModelReasoningEffort
  cancel : Option Bool
  network_access_enabled : Option Bool
  web_search_mode : Option WebSearchMode
  web_search_enabled : Option Bool
  approval_policy : Option ApprovalMode
deriving Repr, DecidableEq

/-- `CodexExecArgs::default()`: every optional field absent, empty input. -/
def CodexExecArgs.default : CodexExecArgs :=
  { input := ""
  , base_url := none
  , api_key := none
  , thread_id := none
  , images := none
  , model := none
  , sandbox_mode := none
  , working_directory := none
  , additional_directories := none
  , skip_git_repo_check := none
  , output_schema_file := none
  , model_reasoning_effort := none
  , cancel := none
  , network_access_enabled := none
  , web_search_mode := none
  , web_search_enabled := none
  , approval_policy := none }

/-- The `--config` pairs pushed by `build_command` for the client config
override tree, two tokens per serializer entry. -/
def configTokens (config_overrides : Option Jval) : Except CodexError (List String) :=
  match config_overrides with
  | some cfg => do
      let overrides ← serializeConfigOverrides cfg
      pure (overrides.flatMap (fun o => ["--config", o]))
  | none => pure []

/-- The `--model` block of `build_command`. -/
def modelTokens (a : CodexExecArgs) : List String :=
  match a.model with
  | some m => ["--model", m]
  | none => []

/-- The `--sandbox` block of `build_command`. -/
def sandboxTokens (a : CodexExecArgs) : List String :=
  match a.sandbox_mode with
  | some mode => ["--sandbox", mode.as_str]
  | none => []

/-- The `--cd` block of `build_command`. -/
def cdTokens (a : CodexExecArgs) : List String :=
  match a.working_directory with
  | some dir => ["--cd", dir]
  | none => []

/-- The `--add-dir` loop of `build_command`, one pair per directory in
insertion order. -/
def addDirTokens (a : CodexExecArgs) : List String :=
  match a.additional_directories with
  | some dirs => dirs.flatMap (fun dir => ["--add-dir", dir])
  | none => []

/-- The `--skip-git-repo-check` block of `build_command`,
`skip_git_repo_check.unwrap_or(false)`. -/
def skipGitTokens (a : CodexExecArgs) : List String :=
  if a.skip_git_repo_check.getD false then ["--skip-git-repo-check"] else []

/-- The `--output-schema` block of `build_command`. -/
def outputSchemaTokens (a : CodexExecArgs) : List String :=
  match a.output_schema_file with
  | some path => ["--output-schema", path]
  | none => []

/-- The reasoning-effort `--config` block of `build_command`. -/
def reasoningTokens (a : CodexExecArgs) : List String :=
  match a.model_reasoning_effort with
  | some effort => ["--config", "model_reasoning_effort=\"" ++ effort.as_str ++ "\""]
  | none => []

/-- The network-access `--config` block of `build_command`. -/
def networkTokens (a : CodexExecArgs) : List String :=
  match a.network_access_enabled with
  | some network_access =>
      ["--config", "sandbox_workspace_write.network_access="
        ++ (if network_access then ("true") else ("false"))]
  | none => []

/-- The web-search `--config` block of `build_command`: an explicit mode
wins, otherwise the boolean maps true to live and false to disabled. -/
def webSearchTokens (a : CodexExecArgs) : List String :=
  match a.web_search_mode with
  | some mode => ["--config", "web_search=\"" ++ mode.as_str ++ "\""]
  | none =>
      match a.web_search_enabled with
      | some web_search_enabled =>
          ["--config", "web_search=\""
            ++ (if web_search_enabled then ("live") else ("disabled")) ++ "\""]
      | none => []

/-- The approval-policy `--config` block of `build_command`. -/
def approvalTokens (a : CodexExecArgs) : List String :=
  match a.approval_policy with
  | some policy => ["--config", "approval_policy=\"" ++ policy.as_str ++ "\""]
  | none => []

/-- The `resume` block of `build_command`. -/
def resumeTokens (a : CodexExecArgs) : List String :=
  match a.thread_id with
  | some thread_id => ["resume", thread_id]
  | none => []

/-- The `--image` loop of `build_command`, one pair per image in insertion
order. -/
def imageTokens (a : CodexExecArgs) : List String :=
  match a.images with
  | some images => images.flatMap (fun image => ["--image", image])
  | none => []

/-- The argument vector built by `CodexExec::build_command`: the sequential
pushes of the source, in source order. -/
def buildCommandArgs (config_overrides : Option Jval) (a : CodexExecArgs) :
    Except CodexError (List String) := do
  let cfgToks ← configTokens config_overrides
  pure (["exec", "--experimental-json"] ++ cfgToks
    ++ modelTokens a ++ sandboxTokens a ++ cdTokens a ++ addDirTokens a
    ++ skipGitTokens a ++ outputSchemaTokens a ++ reasoningTokens a
    ++ networkTokens a ++ webSearchTokens a ++ approvalTokens a
    ++ resumeTokens a ++ imageTokens a)

/-- Environment mappings, the abstraction of `HashMap<String, String>`. -/
def EnvMap : Type := String → Option String

/-- `HashMap::insert`: overwrite the binding for `k`. -/
def envInsert (m : EnvMap) (k v : String) : EnvMap :=
  fun x => if x = k then some v else m x

/-- `HashMap::entry(k).or_insert_with(v)`: bind `k` only if absent. -/
def envOrInsert (m : EnvMap) (k v : String) : EnvMap :=
  fun x => if x = k then some ((m k).getD v) else m x

/-- `CodexExec::build_env` from `src/exec.rs`: start from the override map
verbatim or the inherited process environment, default the originator,
`CI` and `TERM` markers only if absent, then force the base-URL and
API-key bindings from the request. -/
def buildEnv (env_override : Option EnvMap) (inherited : EnvMap)
    (a : CodexExecArgs) : EnvMap :=
  let env_vars := match env_override with
    | some o => o
    | none => inherited
  let env_vars := envOrInsert env_vars ("CODEX_INTERNAL_ORIGINATOR_OVERRIDE") ("codex_sdk_rs")
  let env_vars := envOrInsert env_vars ("CI") ("true")
  let env_vars := envOrInsert env_vars ("TERM") ("xterm")
  let env_vars := match a.base_url with
    | some base_url => envInsert env_vars ("OPENAI_BASE_URL") base_url
    | none => env_vars
  match a.api_key with
  | some api_key => envInsert env_vars ("CODEX_API_KEY") api_key
  | none => env_vars

/-- `CommandSpec` from `src/exec.rs`: ordered argument list plus
environment mapping. -/
structure CommandSpec where
  args : List String
  env : EnvMap

/-- `CodexExec::build_command`: the argument vector and the environment,
as a function of the client configuration, the inherited process
environment and the per-turn `CodexExecArgs`. -/
def buildCommand (config_overrides : Option Jval) (env_override : Option EnvMap)
    (inherited : EnvMap) (a : CodexExecArgs) : Except CodexError CommandSpec := do
  let args ← buildCommandArgs config_overrides a
  pure { args := args, env := buildEnv env_override inherited a }

/-- `Usage` from `src/events.rs`: the three `u64` token counters. -/
structure Usage where
  input_tokens : Nat
  cached_input_tokens : Nat
  output_tokens : Nat
deriving Repr, DecidableEq

/-- `ThreadError` from `src/events.rs`. -/
structure ThreadError where
  message : String
deriving Repr, DecidableEq

/-- `CommandExecutionStatus` from `src/items.rs`. -/
inductive CommandExecutionStatus where
  | inProgress
  | completed
  | failed
deriving Repr, DecidableEq

/-- `PatchChangeKind` from `src/items.rs`. -/
inductive PatchChangeKind where
  | add
  | delete
  | update
deriving Repr, DecidableEq

/-- `PatchApplyStatus` from `src/items.rs`. -/
inductive PatchApplyStatus where
  | completed
  | failed
deriving Repr, DecidableEq

/-- `McpToolCallStatus` from `src/items.rs`. -/
inductive McpToolCallStatus where
  | inProgress
  | completed
  | failed
deriving Repr, DecidableEq

/-- `FileUpdateChange` from `src/items.rs`. -/
structure FileUpdateChange where
  path : String
  kind : PatchChangeKind
deriving Repr, DecidableEq

/-- `McpToolCallResult` from `src/items.rs`. -/
structure McpToolCallResult where
  content : List Jval
  structured_content : Jval

/-- `McpToolCallError` from `src/items.rs`. -/
structure McpToolCallError where
  message : String
deriving Repr, DecidableEq

/-- `TodoItem` from `src/items.rs`. -/
structure TodoItem where
  text : String
  completed : Bool
deriving Repr, DecidableEq

/-- `ThreadItem` from `src/items.rs`: the closed item vocabulary. -/
inductive ThreadItem where
  | agentMessage (id text : String)
  | reasoning (id text : String)
  | commandExecution (id command aggregated_output : String)
      (exit_code : Option Int) (status : CommandExecutionStatus)
  | fileChange (id : String) (changes : List FileUpdateChange)
      (status : PatchApplyStatus)
  | mcpToolCall (id server tool : String) (arguments : Jval)
      (result : Option McpToolCallResult) (err : Option McpToolCallError)
      (status : McpToolCallStatus)
  | webSearch (id query : String)
  | todoList (id : String) (items : List TodoItem)
  | error (id message : String)

/-- `ThreadEvent` from `src/events.rs`: the closed event vocabulary. -/
inductive ThreadEvent where
  | threadStarted (thread_id : String)
  | turnStarted
  | turnCompleted (usage : Usage)
  | turnFailed (err : ThreadError)
  | itemStarted (item : ThreadItem)
  | itemUpdated (item : ThreadItem)
  | itemCompleted (item : ThreadItem)
  | threadErrorEvent (message : String)

/-- `Turn` from `src/thread.rs`: the aggregated result. -/
structure Turn where
  items : List ThreadItem
  final_response : String
  usage : Option Usage

/-- `UserInput` from `src/thread.rs`. -/
inductive UserInput where
  | text (text : String)
  | localImage (path : String)
deriving Repr, DecidableEq

/-- `Input` from `src/thread.rs`. -/
inductive Input where
  | text (t : String)
  | structured (items : List UserInput)
deriving Repr, DecidableEq

/-- The segment loop of `Thread::normalize_input`: text segments go to the
prompt parts, image segments to the image list, both in order. -/
def collectSegments : List UserInput → List String × List String
  | [] => ([], [])
  | .text t :: rest =>
      let res := collectSegments rest
      (t :: res.1, res.2)
  | .localImage path :: rest =>
      let res := collectSegments rest
      (res.1, path :: res.2)

/-- `Thread::normalize_input` from `src/thread.rs`: plain text passes
through with no images; structured input joins its text segments with a
blank line and collects the image paths separately. -/
def normalizeInput : Input → String × List String
  | .text t => (t, [])
  | .structured items =>
      let res := collectSegments items
      (String.intercalate ("\n\n") res.1, res.2)

/-- The session-id update performed on each event observed by
`Thread::run_streamed_internal`: a `ThreadStarted` event overwrites the
shared id unconditionally, every other event leaves it unchanged. -/
def updateSession (sid : Option String) : ThreadEvent → Option String
  | .threadStarted thread_id => some thread_id
  | _ => sid

/-- The line-drain loop of `Thread::run_streamed_internal`: each stream
error ends the stream as that error; each line either parses to an event
(updating the session id) or ends the stream as `InvalidEvent` carrying
the raw line. Returns the yielded stream items and the final session id.
The string-to-event parse of serde_json is a parameter. -/
def drainEvents (parse : String → Option ThreadEvent) :
    Option String → List (Except CodexError String) →
    List (Except CodexError ThreadEvent) × Option String
  | sid, [] => ([], sid)
  | sid, .error e :: _ => ([.error e], sid)
  | sid, .ok line :: rest =>
      match parse line with
      | none => ([.error (.invalidEvent line)], sid)
      | some ev =>
          let res := drainEvents parse (updateSession sid ev) rest
          (.ok ev :: res.1, res.2)

/-- The drain loop of `Thread::run` from `src/thread.rs`: stream errors
propagate, completed items accumulate (an agent message also overwriting
the running final response), `TurnCompleted` captures usage,
`TurnFailed` stops and fails the whole turn, everything else is ignored. -/
def runLoop : List (Except CodexError ThreadEvent) →
    List ThreadItem → String → Option Usage → Except CodexError Turn
  | [], items, final_response, usage =>
      .ok { items := items, final_response := final_response, usage := usage }
  | .error e :: _, _, _, _ => .error e
  | .ok ev :: rest, items, final_response, usage =>
      match ev with
      | .itemCompleted item =>
          let final_response := match item with
            | .agentMessage _ text => text
            | _ => final_response
          runLoop rest (items ++ [item]) final_response usage
      | .turnCompleted event_usage => runLoop rest items final_response (some event_usage)
      | .turnFailed err => .error (.turnFailed err.message)
      | _ => runLoop rest items final_response usage

/-- `Thread::run` in aggregated mode, as a function of the drained event
stream: empty accumulators, then the drain loop. -/
def runAggregate (events : List (Except CodexError ThreadEvent)) :
    Except CodexError Turn :=
  runLoop events [] ("") none

/-- `CodexOptions` from `src/codex_options.rs`. -/
structure CodexOptions where
  codex_path_override : Option String
  base_url : Option String
  api_key : Option String
  config : Option Jval
  env : Option EnvMap

/-- `ThreadOptions` from `src/thread_options.rs`. -/
structure ThreadOptions where
  model : Option String
  sandbox_mode : Option SandboxMode
  working_directory : Option String
  skip_git_repo_check : Option Bool
  model_reasoning_effort : Option ModelReasoningEffort
  network_access_enabled : Option Bool
  web_search_mode : Option WebSearchMode
  web_search_enabled : Option Bool
  approval_policy : Option ApprovalMode
  additional_directories : Option (List String)

/-- The `CodexExecArgs` literal built by `Thread::run_streamed_internal`
(lines 113-135 of `src/thread.rs`): Thread-level options merged with the
per-turn data, the stored session id passed through as `thread_id`, and
an empty image list collapsed to `None`. -/
def mkExecArgs (options : CodexOptions) (thread_options : ThreadOptions)
    (thread_id : Option String) (prompt : String) (images : List String)
    (schema_path : Option String) (cancel : Option Bool) : CodexExecArgs :=
  { input := prompt
  , base_url := options.base_url
  , api_key := options.api_key
  , thread_id := thread_id
  , images := if images.isEmpty then none else some images
  , model := thread_options.model
  , sandbox_mode := thread_options.sandbox_mode
  , working_directory := thread_options.working_directory
  , additional_directories := thread_options.additional_directories
  , skip_git_repo_check := thread_options.skip_git_repo_check
  , output_schema_file := schema_path
  , model_reasoning_effort := thread_options.model_reasoning_effort
  , cancel := cancel
  , network_access_enabled := thread_options.network_access_enabled
  , web_search_mode := thread_options.web_search_mode
  , web_search_enabled := thread_options.web_search_enabled
  , approval_policy := thread_options.approval_policy }

/-- What the spawned codex process would do, abstracted to what
`CodexExec::run` observes of it: its stdout lines, its exit outcome and
its captured stderr text. -/
structure ChildBehavior where
  out_lines : List String
  exit_success : Bool
  exit_code : Option Int
  stderr_text : String

/-- The observable outcome of one call to `CodexExec::run`: whether a
child process was spawned, and the items the line stream yields. -/
structure RunTrace where
  spawned : Bool
  items : List (Except CodexError String)

/-- `ExitStatus` rendering in `CodexExec::run`: the numeric code if
available, otherwise the process died by signal. -/
def exitDetail (child : ChildBehavior) : String :=
  match child.exit_code with
  | some code => "code " ++ toString code
  | none => "signal"

/-- `CodexExec::run` from `src/exec.rs`, as the deterministic projection
in which cancellation is observed at the pre-spawn check (`cancel` is the
is_cancelled of the token there; a mid-stream cancellation race is a
scheduling event outside this embedding): an already-signaled token
aborts before any spawn; otherwise the child is spawned, its lines are
yielded in order, and a non-success exit appends `ExecFailed` with the
exit detail and the captured stderr text. -/
def runExec (cancel : Option Bool) (child : ChildBehavior) : RunTrace :=
  if cancel = some true then
    { spawned := false, items := [.error .aborted] }
  else
    { spawned := true
    , items := child.out_lines.map .ok ++
        (if child.exit_success then []
         else [.error (.execFailed (exitDetail child) child.stderr_text)]) }

/-- Whether an event is `TurnFailed`. -/
def ThreadEvent.isTurnFailed : ThreadEvent → Bool
  | .turnFailed _ => true
  | _ => false

/-- Whether a stream element is an `ItemCompleted` event carrying an agent
message, the only element that writes the running final response. -/
def isAgentCompleted : Except CodexError ThreadEvent → Bool
  | .ok (.itemCompleted (.agentMessage _ _)) => true
  | _ => false

/-- Whether a stream element is a `TurnCompleted` event, the only element
that writes the usage field. -/
def isTurnCompletedEv : Except CodexError ThreadEvent → Bool
  | .ok (.turnCompleted _) => true
  | _ => false

/-- The text carried by a text segment, if any. -/
def segText : UserInput → Option String
  | .text t => some t
  | .localImage _ => none

/-- The path carried by an image segment, if any. -/
def segImage : UserInput → Option String
  | .text _ => none
  | .localImage p => some p

/-- The configuration tree of the worked example in the spec, in its written
(insertion) order. -/
def c2tree : Jval :=
  .obj
    [(("approval_policy"), .str ("never")),
     (("sandbox_workspace_write"), .obj [(("network_access"), .bool true)]),
     (("retry_budget"), .num (.int 3)),
     (("tool_rules"), .obj [(("allow"), .arr [.str ("git status"), .str ("git diff")])])]

/-- A request that both resumes a thread and attaches one image. -/
def c4args : CodexExecArgs :=
  { CodexExecArgs.default with thread_id := some ("t"), images := some [("i.png")] }

/-- C1 counterexample: a `null` element of an array is not pruned; the
serializer rejects the whole tree with `InvalidConfigNull` at the indexed
path, so a null at that depth does produce an error. -/
theorem C1_array_null_errors :
    serializeConfigOverrides (.obj [(("a"), .arr [.null])]) =
      .error (.invalidConfigNull ("a[0]")) := rfl

/-- C1 (amended): a `null` object member is pruned silently — both in the
flattening walk and inside an inline object rendered as a value — with no
entry, no error and no traversal beneath it; but a `null` array element
fails with `InvalidConfigNull` at the indexed path of the element, and a `null`
root fails with `InvalidConfigRoot`. -/
theorem C1_null_pruning :
    (∀ (key : String) (rest : List (String × Jval)) (pfx : String), key ≠ "" →
      flattenFields ((key, Jval.null) :: rest) pfx = flattenFields rest pfx) ∧
    (∀ (key : String) (rest : List (String × Jval)) (path : String), key ≠ "" →
      toTomlObjParts ((key, Jval.null) :: rest) path = toTomlObjParts rest path) ∧
    (∀ path : String, toTomlValue Jval.null path = .error (.invalidConfigNull path)) ∧
    serializeConfigOverrides Jval.null = .error .invalidConfigRoot := by
  refine ⟨?_, ?_, fun _ => rfl, rfl⟩
  · intro key rest pfx hkey
    simp [flattenFields, hkey, Jval.isNull]
  · intro key rest path hkey
    simp [toTomlObjParts, hkey, Jval.isNull]

/-- C1 witness: the pruning branches applied at concrete inputs. -/
theorem C1_null_pruning_witness :
    flattenFields [(("k"), Jval.null), (("b"), Jval.bool true)] ("") =
        flattenFields [(("b"), Jval.bool true)] ("") ∧
    toTomlObjParts [(("k"), Jval.null)] ("p") = toTomlObjParts [] ("p") :=
  ⟨C1_null_pruning.1 ("k") [(("b"), Jval.bool true)] ("") (by decide),
   C1_null_pruning.2.1 ("k") [] ("p") (by decide)⟩

/-- C2: the worked configuration tree of the spec serializes to exactly the
four override entries, in insertion order, and `build_command` passes each
as its own `--config` pair in that order. -/
theorem C2_concrete_overrides :
    serializeConfigOverrides c2tree = .ok
      [("approval_policy=\"never\""),
       ("sandbox_workspace_write.network_access=true"),
       ("retry_budget=3"),
       ("tool_rules.allow=[\"git status\", \"git diff\"]")] ∧
    buildCommandArgs (some c2tree) { CodexExecArgs.default with input := ("hello") } = .ok
      ["exec", "--experimental-json",
       "--config", "approval_policy=\"never\"",
       "--config", "sandbox_workspace_write.network_access=true",
       "--config", "retry_budget=3",
       "--config", "tool_rules.allow=[\"git status\", \"git diff\"]"] :=
  ⟨rfl, rfl⟩

/-- C3: command building is a pure function — identical `CodexExecArgs`
under a fixed client configuration and inherited environment yield the
identical `CommandSpec`, and the override serializer is deterministic. -/
theorem C3_build_deterministic (config_overrides : Option Jval)
    (env_override : Option EnvMap) (inherited : EnvMap)
    (a1 a2 : CodexExecArgs) (h : a1 = a2) :
    buildCommand config_overrides env_override inherited a1 =
      buildCommand config_overrides env_override inherited a2 ∧
    ∀ v : Jval, serializeConfigOverrides v = serializeConfigOverrides v := by
  subst h
  exact ⟨rfl, fun _ => rfl⟩

/-- C3 witness: determinism applied at a concrete request. -/
theorem C3_build_deterministic_witness :
    buildCommand none none (fun _ => none) c4args =
      buildCommand none none (fun _ => none) c4args :=
  (C3_build_deterministic none none (fun _ => none) c4args c4args rfl).1

/-- C4: every successfully built argument vector is exactly the fixed
subcommand prefix followed by the config pairs, the optional flags and the
trailing config pairs in source order, then the resume tokens, then the
image pairs; in particular, with both a resume id and images present the
`resume` tokens strictly precede every `--image` token. -/
theorem C4_token_order (config_overrides : Option Jval) (a : CodexExecArgs)
    (ts : List String) (h : buildCommandArgs config_overrides a = .ok ts) :
    (∃ cfgToks, configTokens config_overrides = .ok cfgToks ∧
      ts = ["exec", "--experimental-json"] ++ cfgToks
        ++ modelTokens a ++ sandboxTokens a ++ cdTokens a ++ addDirTokens a
        ++ skipGitTokens a ++ outputSchemaTokens a ++ reasoningTokens a
        ++ networkTokens a ++ webSearchTokens a ++ approvalTokens a
        ++ resumeTokens a ++ imageTokens a) ∧
    (∀ (tid : String) (imgs : List String),
      a.thread_id = some tid → a.images = some imgs →
      ∃ p, ts = p ++ ["resume", tid] ++ imgs.flatMap (fun i => ["--image", i])) := by
  cases hc : configTokens config_overrides with
  | error e =>
      rw [buildCommandArgs, hc] at h
      exact absurd h (by simp [Bind.bind, Except.bind])
  | ok cfgToks =>
      rw [buildCommandArgs, hc] at h
      simp [Bind.bind, Except.bind, pure, Except.pure] at h
      subst h
      constructor
      · exact ⟨cfgToks, rfl, by simp⟩
      · intro tid imgs htid himgs
        refine ⟨["exec", "--experimental-json"] ++ cfgToks
          ++ modelTokens a ++ sandboxTokens a ++ cdTokens a ++ addDirTokens a
          ++ skipGitTokens a ++ outputSchemaTokens a ++ reasoningTokens a
          ++ networkTokens a ++ webSearchTokens a ++ approvalTokens a, ?_⟩
        simp [resumeTokens, htid, imageTokens, himgs]

/-- C4 witness: the suffix decomposition at a concrete resuming request
with one image. -/
theorem C4_token_order_witness :
    buildCommandArgs none c4args =
        .ok ["exec", "--experimental-json", "resume", "t", "--image", "i.png"] ∧
    c4args.thread_id = some ("t") ∧ c4args.images = some [("i.png")] ∧
    ∃ p, ["exec", "--experimental-json", "resume", "t", "--image", "i.png"] =
      p ++ ["resume", ("t")] ++ [("i.png")].flatMap (fun i => ["--image", i]) :=
  ⟨rfl, rfl, rfl,
   (C4_token_order none c4args
      ["exec", "--experimental-json", "resume", "t", "--image", "i.png"] rfl).2
     ("t") [("i.png")] rfl rfl⟩

/-- The drain loop fails as `TurnFailed` the moment it meets a
`TurnFailed` event, whatever was accumulated so far and whatever follows. -/
theorem runLoop_turnFailed (e : ThreadError) (post : List (Except CodexError ThreadEvent)) :
    ∀ (pre : List ThreadEvent), (∀ ev ∈ pre, ev.isTurnFailed = false) →
    ∀ (items : List ThreadItem) (fr : String) (usage : Option Usage),
    runLoop (pre.map .ok ++ .ok (.turnFailed e) :: post) items fr usage =
      .error (.turnFailed e.message) := by
  intro pre
  induction pre with
  | nil => intro _ items fr usage; simp [runLoop]
  | cons head tail ih =>
      intro h items fr usage
      have hh : head.isTurnFailed = false := h head (List.mem_cons_self _ _)
      have ht : ∀ ev ∈ tail, ev.isTurnFailed = false :=
        fun ev hev => h ev (List.mem_cons_of_mem _ hev)
      cases head with
      | turnFailed err => simp [ThreadEvent.isTurnFailed] at hh
      | itemCompleted item => simpa [runLoop] using ih ht _ _ usage
      | turnCompleted u => simpa [runLoop] using ih ht items fr _
      | threadStarted tid => simpa [runLoop] using ih ht items fr usage
      | turnStarted => simpa [runLoop] using ih ht items fr usage
      | itemStarted item => simpa [runLoop] using ih ht items fr usage
      | itemUpdated item => simpa [runLoop] using ih ht items fr usage
      | threadErrorEvent msg => simpa [runLoop] using ih ht items fr usage

/-- C5: an aggregated drain that reaches a `TurnFailed` event stops there
and fails the whole turn with `TurnFailed` carrying the failure message;
it never returns a `Turn`, so earlier items are discarded. -/
theorem C5_turn_failed (pre : List ThreadEvent) (e : ThreadError)
    (post : List (Except CodexError ThreadEvent))
    (h : ∀ ev ∈ pre, ev.isTurnFailed = false) :
    runAggregate (pre.map .ok ++ .ok (.turnFailed e) :: post) =
      .error (.turnFailed e.message) ∧
    ∀ t : Turn, runAggregate (pre.map .ok ++ .ok (.turnFailed e) :: post) ≠ .ok t := by
  have key := runLoop_turnFailed e post pre h [] ("") none
  refine ⟨key, fun t hcontra => ?_⟩
  rw [runAggregate] at hcontra
  rw [key] at hcontra
  exact Except.noConfusion hcontra

/-- C5 witness: a failing sequence with one earlier completed item and a
trailing event that is never consumed. -/
theorem C5_turn_failed_witness :
    (∀ ev ∈ [ThreadEvent.turnStarted,
        ThreadEvent.itemCompleted (.agentMessage ("i1") ("partial"))],
      ev.isTurnFailed = false) ∧
    runAggregate
      ([ThreadEvent.turnStarted,
        ThreadEvent.itemCompleted (.agentMessage ("i1") ("partial"))].map .ok
        ++ .ok (.turnFailed ⟨("boom")⟩) :: [.ok .turnStarted]) =
      .error (.turnFailed ("boom")) :=
  ⟨by intro ev hev; fin_cases hev <;> rfl,
   (C5_turn_failed
      [ThreadEvent.turnStarted,
       ThreadEvent.itemCompleted (.agentMessage ("i1") ("partial"))]
      ⟨("boom")⟩ [.ok .turnStarted]
      (by intro ev hev; fin_cases hev <;> rfl)).1⟩

/-- C6: a `ThreadStarted` event overwrites the shared session id
unconditionally — whatever its prior value — the drained stream threads
the new value through the rest of the events, and the args builder of a
later turn passes the stored id through verbatim as the resume id. -/
theorem C6_session_overwrite :
    (∀ (sid : Option String) (tid : String),
      updateSession sid (.threadStarted tid) = some tid) ∧
    (∀ (parse : String → Option ThreadEvent) (sid : Option String) (line : String)
      (rest : List (Except CodexError String)) (tid : String),
      parse line = some (.threadStarted tid) →
      drainEvents parse sid (.ok line :: rest) =
        (.ok (.threadStarted tid) :: (drainEvents parse (some tid) rest).1,
         (drainEvents parse (some tid) rest).2)) ∧
    (∀ (options : CodexOptions) (thread_options : ThreadOptions) (sid : Option String)
      (prompt : String) (images : List String) (schema : Option String)
      (cancel : Option Bool),
      (mkExecArgs options thread_options sid prompt images schema cancel).thread_id = sid) := by
  refine ⟨fun _ _ => rfl, ?_, fun _ _ _ _ _ _ _ => rfl⟩
  intro parse sid line rest tid hparse
  simp [drainEvents, hparse, updateSession]

/-- C6 witness: a stream whose only line is a `ThreadStarted` event
overwrites a pre-existing session id. -/
theorem C6_session_overwrite_witness :
    ((fun _ : String => some (ThreadEvent.threadStarted ("T2"))) ("line1") =
      some (ThreadEvent.threadStarted ("T2"))) ∧
    drainEvents (fun _ => some (ThreadEvent.threadStarted ("T2")))
        (some ("T1")) [.ok ("line1")] =
      ([.ok (.threadStarted ("T2"))], some ("T2")) :=
  ⟨rfl,
   C6_session_overwrite.2.1 (fun _ => some (ThreadEvent.threadStarted ("T2")))
     (some ("T1")) ("line1") [] ("T2") rfl⟩

/-- C7: a cancellation handle already signaled when `run` begins makes the
stream fail immediately with `Aborted`: no process is spawned and no line
is ever yielded. -/
theorem C7_pre_spawn_abort (child : ChildBehavior) :
    (runExec (some true) child).spawned = false ∧
    (runExec (some true) child).items = [.error .aborted] ∧
    ∀ line : String, (Except.ok line) ∉ (runExec (some true) child).items := by
  refine ⟨rfl, rfl, fun line hmem => ?_⟩
  simp [runExec] at hmem

/-- The line-drain loop turns each parseable line into exactly its event
and stops at the first unparseable line, failing the stream with
`InvalidEvent` carrying that line verbatim. -/
theorem drainEvents_invalid (parse : String → Option ThreadEvent) (l : String)
    (hl : parse l = none) (post : List (Except CodexError String)) :
    ∀ (pre : List String) (pevs : List ThreadEvent) (sid : Option String),
    pre.map parse = pevs.map some →
    (drainEvents parse sid (pre.map .ok ++ .ok l :: post)).1 =
      pevs.map .ok ++ [.error (.invalidEvent l)] := by
  intro pre
  induction pre with
  | nil =>
      intro pevs sid h
      have : pevs = [] := by
        cases pevs with
        | nil => rfl
        | cons q qs => simp at h
      subst this
      simp [drainEvents, hl]
  | cons p rest ih =>
      intro pevs sid h
      cases pevs with
      | nil => simp at h
      | cons q qs =>
          simp only [List.map_cons, List.cons.injEq] at h
          obtain ⟨h1, h2⟩ := h
          simp [drainEvents, h1, ih qs _ h2]

/-- C8: if every earlier line parses and line `l` does not, the event
stream yields exactly one event per earlier line, then fails with
`InvalidEvent` carrying `l` verbatim, and yields nothing further — no
line-skipping and no recovery. -/
theorem C8_invalid_event (parse : String → Option ThreadEvent)
    (pre : List String) (pevs : List ThreadEvent) (l : String)
    (post : List (Except CodexError String)) (sid : Option String)
    (h1 : pre.map parse = pevs.map some) (h2 : parse l = none) :
    (drainEvents parse sid (pre.map .ok ++ .ok l :: post)).1 =
      pevs.map .ok ++ [.error (.invalidEvent l)] :=
  drainEvents_invalid parse l h2 post pre pevs sid h1

/-- C8 witness: one parseable line, then a garbage line, then a line that
is never reached. -/
theorem C8_invalid_event_witness :
    ([("ok")].map (fun s => if s = ("ok") then some ThreadEvent.turnStarted else none) =
      [ThreadEvent.turnStarted].map some) ∧
    ((fun s => if s = ("ok") then some ThreadEvent.turnStarted else none) ("bad") = none) ∧
    (drainEvents (fun s => if s = ("ok") then some ThreadEvent.turnStarted else none)
        none ([("ok")].map .ok ++ .ok ("bad") :: [.ok ("never")])).1 =
      [ThreadEvent.turnStarted].map .ok ++ [.error (.invalidEvent ("bad"))] :=
  ⟨by simp, by simp,
   C8_invalid_event (fun s => if s = ("ok") then some ThreadEvent.turnStarted else none)
     [("ok")] [ThreadEvent.turnStarted] ("bad") [.ok ("never")] none (by simp) (by simp)⟩

/-- The segment loop splits structured input into its text segments and
its image segments, each in order. -/
theorem collectSegments_eq (items : List UserInput) :
    collectSegments items = (items.filterMap segText, items.filterMap segImage) := by
  induction items with
  | nil => rfl
  | cons head tail ih =>
      cases head with
      | text t => simp [collectSegments, segText, segImage, ih]
      | localImage p => simp [collectSegments, segText, segImage, ih]

/-- C9: plain text input passes through unchanged with no images;
structured input yields the in-order text segments joined by a blank line
and the in-order image paths collected separately, never folded into the
prompt. -/
theorem C9_normalize_input :
    (∀ t : String, normalizeInput (.text t) = (t, [])) ∧
    (∀ items : List UserInput,
      normalizeInput (.structured items) =
        (String.intercalate ("\n\n") (items.filterMap segText),
         items.filterMap segImage)) := by
  refine ⟨fun _ => rfl, fun items => ?_⟩
  simp [normalizeInput, collectSegments_eq]

/-- A successful drain leaves the running final response untouched when no
completed agent message was seen. -/
theorem runLoop_final_response :
    ∀ (evs : List (Except CodexError ThreadEvent)) (items : List ThreadItem)
      (fr : String) (usage : Option Usage) (t : Turn),
    runLoop evs items fr usage = .ok t →
    (∀ x ∈ evs, isAgentCompleted x = false) → t.final_response = fr := by
  intro evs
  induction evs with
  | nil =>
      intro items fr usage t ht _
      simp [runLoop] at ht
      rw [← ht]
  | cons head tail ih =>
      intro items fr usage t ht h
      have hh : isAgentCompleted head = false := h head (List.mem_cons_self _ _)
      have htl : ∀ x ∈ tail, isAgentCompleted x = false :=
        fun x hx => h x (List.mem_cons_of_mem _ hx)
      cases head with
      | error e => simp [runLoop] at ht
      | ok ev =>
          cases ev with
          | itemCompleted item =>
              cases item with
              | agentMessage id text => simp [isAgentCompleted] at hh
              | reasoning id text => exact ih _ _ _ _ (by simpa [runLoop] using ht) htl
              | commandExecution id c o ec st =>
                  exact ih _ _ _ _ (by simpa [runLoop] using ht) htl
              | fileChange id ch st => exact ih _ _ _ _ (by simpa [runLoop] using ht) htl
              | mcpToolCall id s tl ar r er st =>
                  exact ih _ _ _ _ (by simpa [runLoop] using ht) htl
              | webSearch id q => exact ih _ _ _ _ (by simpa [runLoop] using ht) htl
              | todoList id its => exact ih _ _ _ _ (by simpa [runLoop] using ht) htl
              | error id msg => exact ih _ _ _ _ (by simpa [runLoop] using ht) htl
          | turnCompleted u => exact ih _ _ _ _ (by simpa [runLoop] using ht) htl
          | turnFailed err => simp [runLoop] at ht
          | threadStarted tid => exact ih _ _ _ _ (by simpa [runLoop] using ht) htl
          | turnStarted => exact ih _ _ _ _ (by simpa [runLoop] using ht) htl
          | itemStarted item => exact ih _ _ _ _ (by simpa [runLoop] using ht) htl
          | itemUpdated item => exact ih _ _ _ _ (by simpa [runLoop] using ht) htl
          | threadErrorEvent msg => exact ih _ _ _ _ (by simpa [runLoop] using ht) htl

/-- A successful drain leaves the running usage untouched when no
`TurnCompleted` event was seen. -/
theorem runLoop_usage :
    ∀ (evs : List (Except CodexError ThreadEvent)) (items : List ThreadItem)
      (fr : String) (usage : Option Usage) (t : Turn),
    runLoop evs items fr usage = .ok t →
    (∀ x ∈ evs, isTurnCompletedEv x = false) → t.usage = usage := by
  intro evs
  induction evs with
  | nil =>
      intro items fr usage t ht _
      simp [runLoop] at ht
      rw [← ht]
  | cons head tail ih =>
      intro items fr usage t ht h
      have hh : isTurnCompletedEv head = false := h head (List.mem_cons_self _ _)
      have htl : ∀ x ∈ tail, isTurnCompletedEv x = false :=
        fun x hx => h x (List.mem_cons_of_mem _ hx)
      cases head with
      | error e => simp [runLoop] at ht
      | ok ev =>
          cases ev with
          | itemCompleted item => exact ih _ _ _ _ (by simpa [runLoop] using ht) htl
          | turnCompleted u => simp [isTurnCompletedEv] at hh
          | turnFailed err => simp [runLoop] at ht
          | threadStarted tid => exact ih _ _ _ _ (by simpa [runLoop] using ht) htl
          | turnStarted => exact ih _ _ _ _ (by simpa [runLoop] using ht) htl
          | itemStarted item => exact ih _ _ _ _ (by simpa [runLoop] using ht) htl
          | itemUpdated item => exact ih _ _ _ _ (by simpa [runLoop] using ht) htl
          | threadErrorEvent msg => exact ih _ _ _ _ (by simpa [runLoop] using ht) htl

/-- C10: an aggregated run that drains to completion without error returns
the empty string as `final_response` when no completed agent message was
observed, and `none` as usage when no `TurnCompleted` was observed. -/
theorem C10_empty_defaults (evs : List (Except CodexError ThreadEvent)) (t : Turn)
    (h : runAggregate evs = .ok t) :
    ((∀ x ∈ evs, isAgentCompleted x = false) → t.final_response = "") ∧
    ((∀ x ∈ evs, isTurnCompletedEv x = false) → t.usage = none) :=
  ⟨fun ha => runLoop_final_response evs [] ("") none t h ha,
   fun hu => runLoop_usage evs [] ("") none t h hu⟩

/-- C10 witness: a stream with only a `TurnStarted` and a completed
reasoning item yields the empty final response and no usage. -/
theorem C10_empty_defaults_witness :
    (runAggregate [.ok .turnStarted, .ok (.itemCompleted (.reasoning ("r1") ("looking")))] =
      .ok { items := [.reasoning ("r1") ("looking")], final_response := (""), usage := none }) ∧
    (Turn.final_response
      { items := [.reasoning ("r1") ("looking")], final_response := (""), usage := none } = ("")) ∧
    (Turn.usage
      { items := [.reasoning ("r1") ("looking")], final_response := (""), usage := none } = none) :=
  ⟨rfl,
   (C10_empty_defaults [.ok .turnStarted, .ok (.itemCompleted (.reasoning ("r1") ("looking")))]
      { items := [.reasoning ("r1") ("looking")], final_response := (""), usage := none }
      rfl).1 (by intro x hx; fin_cases hx <;> rfl),
   (C10_empty_defaults [.ok .turnStarted, .ok (.itemCompleted (.reasoning ("r1") ("looking")))]
      { items := [.reasoning ("r1") ("looking")], final_response := (""), usage := none }
      rfl).2 (by intro x hx; fin_cases hx <;> rfl)⟩

end Codex
